import Mathlib

/-!
Shallow embedding of the sales-analytics RAG pipeline
(`src/data/processor.py`, `src/embeddings/generator.py`,
`src/embeddings/storage.py`, `src/agent/sales_agent.py`) together with
theorems settling the specification claims about it.

Conventions of the embedding:
* pandas numeric columns that were coerced with `errors='coerce'` are
  modelled as `Option ℚ` (`none` = NaN, i.e. an unparsable/missing value);
  pandas `sum`/`count`/`mean`/`max` skip NaN, which is modelled by the
  `optSum`/`optCount`/`optMax` helpers below.
* monetary amounts and quantities are modelled as exact rationals; the
  source uses binary floating point, so equalities proved here correspond
  to "equal up to floating-point rounding" in the source.
* a rational division by zero is `0` in Lean; the corresponding numpy
  expression yields `NaN`/`inf`.  Both disagree with any finite nonzero
  expected value, which is the only way division by zero is used in the
  theorems below.
-/

/-- One row of the cleaned sales DataFrame (`SalesDataProcessor.clean_data`).
`sales` and `quantityOrdered` are `Option ℚ` because `clean_data` coerces
`SALES` and `QUANTITYORDERED` with `errors='coerce'` (unparsable → NaN).
`territory` is `Option String` because `clean_data` fills only `STATE` and
`POSTALCODE`, not `TERRITORY`, so a missing territory stays NaN and is
dropped by `groupby('TERRITORY')`.  `orderNumber` is always present. -/
structure Row where
  orderNumber : ℕ
  sales : Option ℚ
  quantityOrdered : Option ℚ
  customerName : String
  productLine : String
  productCode : String
  territory : Option String
  dealSize : String
  status : String
deriving DecidableEq

/-- pandas `sum` over a column: NaN entries are skipped, an all-NaN or
empty column sums to `0`. -/
def optSum (l : List (Option ℚ)) : ℚ :=
  (l.filterMap id).sum

/-- pandas `count` over a column: the number of non-NaN entries. -/
def optCount (l : List (Option ℚ)) : ℕ :=
  (l.filterMap id).length

/-- The maximum of a list of rationals, `none` on the empty list. -/
def listMaxQ : List ℚ → Option ℚ
  | [] => none
  | x :: xs =>
    match listMaxQ xs with
    | none => some x
    | some m => some (max x m)

/-- The maximum of a list of naturals, `none` on the empty list. -/
def listMaxN : List ℕ → Option ℕ
  | [] => none
  | x :: xs =>
    match listMaxN xs with
    | none => some x
    | some m => some (max x m)

/-- pandas `max` over a column: NaN entries are skipped; an all-NaN or
empty column has no maximum (NaN, modelled as `none`). -/
def optMax (l : List (Option ℚ)) : Option ℚ :=
  listMaxQ (l.filterMap id)

/-- The distinct elements of a list — the group keys produced by a pandas
`groupby` (key order is irrelevant to every fact proved below). -/
def distinctKeys {α : Type} [DecidableEq α] : List α → List α
  | [] => []
  | x :: xs => if x ∈ xs then distinctKeys xs else x :: distinctKeys xs

/-- Worker for `dropDuplicates`: keeps a row iff it has not been seen. -/
def dropDupAux (seen : List Row) : List Row → List Row
  | [] => []
  | r :: rs => if r ∈ seen then dropDupAux seen rs else r :: dropDupAux (r :: seen) rs

/-- `df.drop_duplicates()` from `SalesDataProcessor.clean_data`: removes
exact-duplicate rows, keeping the first occurrence of each. -/
def dropDuplicates (df : List Row) : List Row :=
  dropDupAux [] df

/-- The rows grouped under one customer name
(`df.groupby('CUSTOMERNAME')` in `create_customer_profiles`). -/
def customerRows (df : List Row) (name : String) : List Row :=
  df.filter (fun r => r.customerName = name)

/-- `total_orders` of a customer profile: `'ORDERNUMBER': 'count'`.
Order numbers are always present, so the count is the group size. -/
def customer_total_orders (df : List Row) (name : String) : ℕ :=
  ((customerRows df name).map (fun r => r.orderNumber)).length

/-- `total_sales` of a customer profile: `'SALES': 'sum'` (NaN skipped). -/
def customer_total_sales (df : List Row) (name : String) : ℚ :=
  optSum ((customerRows df name).map (fun r => r.sales))

/-- `avg_order_value` of a customer profile: `'SALES': 'mean'`, i.e. the
sum of the non-NaN sales divided by the number of non-NaN sales. -/
def customer_avg_order_value (df : List Row) (name : String) : ℚ :=
  optSum ((customerRows df name).map (fun r => r.sales)) /
    (optCount ((customerRows df name).map (fun r => r.sales)) : ℚ)

/-- The rows grouped under one `(PRODUCTLINE, PRODUCTCODE)` key
(`analyze_product_catalog`). -/
def productRows (df : List Row) (pl pc : String) : List Row :=
  df.filter (fun r => r.productLine = pl ∧ r.productCode = pc)

/-- `total_sales` of a product entry: `'SALES': 'sum'`. -/
def product_total_sales (df : List Row) (pl pc : String) : ℚ :=
  optSum ((productRows df pl pc).map (fun r => r.sales))

/-- `order_count` of a product entry: the `count` aggregate of the
`SALES` column (non-NaN sales values in the group). -/
def product_order_count (df : List Row) (pl pc : String) : ℕ :=
  optCount ((productRows df pl pc).map (fun r => r.sales))

/-- `total_quantity` of a product entry: `'QUANTITYORDERED': 'sum'`. -/
def product_total_quantity (df : List Row) (pl pc : String) : ℚ :=
  optSum ((productRows df pl pc).map (fun r => r.quantityOrdered))

/-- The distinct product codes of the frame, used by the
`df.groupby('PRODUCTCODE')` aggregations in
`_calculate_product_performance`. -/
def productCodes (df : List Row) : List String :=
  distinctKeys (df.map (fun r => r.productCode))

/-- The rows grouped under one `PRODUCTCODE`. -/
def codeRows (df : List Row) (pc : String) : List Row :=
  df.filter (fun r => r.productCode = pc)

/-- `max_sales = self.df['SALES'].max()` in
`_calculate_product_performance`: the maximum over the raw per-row
`SALES` values of the whole frame (not a per-product aggregate). -/
def max_sales (df : List Row) : Option ℚ :=
  optMax (df.map (fun r => r.sales))

/-- `max_orders = self.df.groupby('PRODUCTCODE')['ORDERNUMBER'].count().max()`:
the largest per-product-code row count. -/
def max_orders (df : List Row) : Option ℕ :=
  listMaxN ((productCodes df).map (fun pc => (codeRows df pc).length))

/-- `max_quantity = self.df.groupby('PRODUCTCODE')['QUANTITYORDERED'].sum().max()`:
the largest per-product-code quantity sum. -/
def max_quantity (df : List Row) : Option ℚ :=
  listMaxQ ((productCodes df).map (fun pc => optSum ((codeRows df pc).map (fun r => r.quantityOrdered))))

/-- `sales_score = product_row['total_sales'] / max_sales if max_sales > 0 else 0`.
A NaN maximum (empty / all-NaN column) fails the `> 0` test, giving `0`. -/
def sales_score (df : List Row) (pl pc : String) : ℚ :=
  match max_sales df with
  | some m => if 0 < m then product_total_sales df pl pc / m else 0
  | none => 0

/-- `order_score = product_row['order_count'] / max_orders if max_orders > 0 else 0`. -/
def order_score (df : List Row) (pl pc : String) : ℚ :=
  match max_orders df with
  | some m => if 0 < m then (product_order_count df pl pc : ℚ) / (m : ℚ) else 0
  | none => 0

/-- `quantity_score = product_row['total_quantity'] / max_quantity if max_quantity > 0 else 0`. -/
def quantity_score (df : List Row) (pl pc : String) : ℚ :=
  match max_quantity df with
  | some m => if 0 < m then product_total_quantity df pl pc / m else 0
  | none => 0

/-- `_calculate_product_performance`: the weighted combination
`sales_score * 0.5 + order_score * 0.3 + quantity_score * 0.2`. -/
def performance_score (df : List Row) (pl pc : String) : ℚ :=
  sales_score df pl pc * (1/2) + order_score df pl pc * (3/10) +
    quantity_score df pl pc * (1/5)

/-- The distinct `(PRODUCTLINE, PRODUCTCODE)` keys of the frame. -/
def productKeys (df : List Row) : List (String × String) :=
  distinctKeys (df.map (fun r => (r.productLine, r.productCode)))

/-- Modelled from the spec: the performance-score formula as the
specification states it, `0.5·(total_sales / max_total_sales_across_products)
+ 0.3·(order_count / max_order_count) + 0.2·(total_quantity /
max_quantity_across_products)`, with all three denominators being maxima of
the corresponding per-product aggregates.  Kept only for comparison with
the source's `performance_score`. -/
def spec_performance_score (df : List Row) (pl pc : String) : ℚ :=
  let maxS := listMaxQ ((productKeys df).map (fun k => product_total_sales df k.1 k.2))
  let maxO := listMaxN ((productKeys df).map (fun k => product_order_count df k.1 k.2))
  let maxQ := listMaxQ ((productKeys df).map (fun k => product_total_quantity df k.1 k.2))
  let s := match maxS with
    | some m => if 0 < m then product_total_sales df pl pc / m else 0
    | none => 0
  let o := match maxO with
    | some m => if 0 < m then (product_order_count df pl pc : ℚ) / (m : ℚ) else 0
    | none => 0
  let q := match maxQ with
    | some m => if 0 < m then product_total_quantity df pl pc / m else 0
    | none => 0
  s * (1/2) + o * (3/10) + q * (1/5)

/-- The rows grouped under one territory (`df.groupby('TERRITORY')` in
`analyze_territories`); rows whose territory is missing belong to no
group, exactly as pandas drops NaN group keys. -/
def territoryRows (df : List Row) (t : String) : List Row :=
  df.filter (fun r => r.territory = some t)

/-- `total_sales` of a territory: `'SALES': 'sum'` over its group. -/
def territory_total_sales (df : List Row) (t : String) : ℚ :=
  optSum ((territoryRows df t).map (fun r => r.sales))

/-- `self.df['SALES'].sum()`: the grand total over every row of the frame,
including rows with a missing territory. -/
def grand_total_sales (df : List Row) : ℚ :=
  optSum (df.map (fun r => r.sales))

/-- `market_share` of a territory in `analyze_territories`:
`row['total_sales'] / self.df['SALES'].sum() * 100`. -/
def market_share (df : List Row) (t : String) : ℚ :=
  territory_total_sales df t / grand_total_sales df * 100

/-- The distinct territory names occurring in the frame — the group keys
produced by `df.groupby('TERRITORY')`. -/
def territoryKeys (df : List Row) : List String :=
  distinctKeys (df.filterMap (fun r => r.territory))

/-- The sum of `market_share` over all aggregated territories. -/
def market_share_sum (df : List Row) : ℚ :=
  ((territoryKeys df).map (market_share df)).sum

/-- `EmbeddingGenerator.generate_text_embedding`: the sentence-transformer
call is external, so its outcome is a parameter — `some v` models a vector
returned by `encode`, `none` models `encode` raising.  The function itself
is total (it never raises): on an error it returns
`np.zeros(settings.EMBEDDING_DIMENSION)`. -/
def generate_text_embedding (dim : ℕ) (encodeOutcome : Option (List ℚ)) : List ℚ :=
  match encodeOutcome with
  | some v => v
  | none => List.replicate dim 0

/-- The `tenacity` retry combinator `stop=stop_after_attempt(n)` for a
deterministic attempt body: returns the number of attempts executed
together with the final outcome.  A successful attempt stops at once; a
raising attempt is re-run until the attempt budget is exhausted, after
which the error propagates. -/
def tenacityRun : ℕ → Except String String → ℕ × Except String String
  | 0, body => (1, body)
  | 1, body => (1, body)
  | n + 2, body =>
    match body with
    | Except.ok a => (1, Except.ok a)
    | Except.error _ =>
      let t := tenacityRun (n + 1) body
      (t.1 + 1, t.2)

/-- One attempt of the body of `EmbeddingGenerator.enhance_text_with_groq`:
after the (non-raising) rate-limit check it runs
`try: ... groq ... return response...strip() except Exception: return text`.
`groqOutcome = some s` models the external generation call returning `s`;
`none` models it raising.  Because the `except Exception` handler returns
the base `text`, the attempt never raises. -/
def enhanceAttempt (groqOutcome : Option String) (text : String) : Except String String :=
  Except.ok (match groqOutcome with
    | some s => s.trim
    | none => text)

/-- `EmbeddingGenerator.enhance_text_with_groq`: the attempt body wrapped
in `@retry(stop=stop_after_attempt(3), wait=wait_exponential(multiplier=1,
min=4, max=10))`.  Result: (number of attempts executed, outcome). -/
def enhance_text_with_groq (groqOutcome : Option String) (text : String) :
    ℕ × Except String String :=
  tenacityRun 3 (enhanceAttempt groqOutcome text)

/-- The data attached to one entity key in the `embeddings` dictionary
handed to `QdrantStorage.store_embeddings`. -/
structure EmbData where
  text : String
  vector : List ℚ
  metadata : List (String × String)
deriving DecidableEq

/-- The payload written with each point: `{'key': key, 'text': ...,
'metadata': ..., **metadata}` (the flattened scalar copies are carried
inside `metadata` here). -/
structure PointPayload where
  key : String
  text : String
  metadata : List (String × String)
deriving DecidableEq

/-- One stored point of the Qdrant collection. -/
structure QPoint where
  id : ℕ
  vector : List ℚ
  payload : PointPayload
deriving DecidableEq

/-- The vector collection plus the identifier supply.  `uuid.uuid4()`
draws a fresh random identifier on every call; this is modelled by a
counter `nextFreshId`, with well-formedness (`freshIdsOk`) saying every
stored id was drawn earlier, so a new draw never collides. -/
structure QCollection where
  points : List QPoint
  nextFreshId : ℕ
deriving DecidableEq

/-- Well-formedness of the identifier supply: all stored ids precede the
next fresh one (uuid4 never redraws an existing id). -/
def freshIdsOk (coll : QCollection) : Prop :=
  ∀ q ∈ coll.points, q.id < coll.nextFreshId

/-- The vector-database upsert contract for a single point (external
Qdrant capability, spec §6): a point whose id is already present replaces
the stored point; a new id is appended. -/
def upsertPoint (points : List QPoint) (pt : QPoint) : List QPoint :=
  if points.any (fun q => q.id = pt.id) then
    points.map (fun q => if q.id = pt.id then pt else q)
  else
    points ++ [pt]

/-- Batch upsert: the points are applied in order. -/
def qdrantUpsert (points : List QPoint) (pts : List QPoint) : List QPoint :=
  pts.foldl upsertPoint points

/-- `PointStruct(id=str(uuid.uuid4()), vector=embedding_data['embedding'],
payload={'key': key, ...})` for one dictionary entry, with `n` the freshly
drawn identifier. -/
def mkPoint (n : ℕ) (key : String) (e : EmbData) : QPoint :=
  { id := n, vector := e.vector,
    payload := { key := key, text := e.text, metadata := e.metadata } }

/-- The points built by the loop in `QdrantStorage.store_embeddings`:
one `PointStruct` per dictionary entry, each with a freshly drawn
identifier. -/
def buildPoints (nextId : ℕ) : List (String × EmbData) → List QPoint
  | [] => []
  | (key, e) :: rest => mkPoint nextId key e :: buildPoints (nextId + 1) rest

/-- `QdrantStorage.store_embeddings`: empty input returns `True` without
touching the client; otherwise every record gets a fresh identifier and
the batch is upserted.  Returns the success flag and the new collection
state. -/
def store_embeddings (coll : QCollection) (embeddings : List (String × EmbData)) :
    Bool × QCollection :=
  if embeddings.isEmpty then
    (true, coll)
  else
    let pts := buildPoints coll.nextFreshId embeddings
    (true,
      { points := qdrantUpsert coll.points pts,
        nextFreshId := coll.nextFreshId + embeddings.length })

/-- The number of stored points carrying a given entity key. -/
def countKey (coll : QCollection) (k : String) : ℕ :=
  (coll.points.filter (fun q => q.payload.key = k)).length

/-- One formatted hit of `QdrantStorage.search_similar`: its similarity
score plus the payload fields read by the numeric post-filters
(`payload.get('total_sales', 0)` etc.; an absent field is `none`). -/
structure SearchHit where
  score : ℚ
  key : String
  totalSales : Option ℚ
  performanceScore : Option ℚ
  marketShare : Option ℚ
deriving DecidableEq

/-- `QdrantStorage.search_customers`: `page` is the list returned by
`search_similar` for the fixed equality filter `{'type': 'customer'}` and
the given limit — identical for the filtered and the unfiltered call — and
`min_sales` drives the client-side post-filter
`r['payload'].get('total_sales', 0) >= min_sales`. -/
def search_customers (page : List SearchHit) (minSales : Option ℚ) : List SearchHit :=
  match minSales with
  | none => page
  | some m => page.filter (fun r => m ≤ r.totalSales.getD 0)

/-- `QdrantStorage.search_products`: post-filter
`r['payload'].get('performance_score', 0) >= min_performance`. -/
def search_products (page : List SearchHit) (minPerformance : Option ℚ) : List SearchHit :=
  match minPerformance with
  | none => page
  | some m => page.filter (fun r => m ≤ r.performanceScore.getD 0)

/-- `QdrantStorage.search_territories`: post-filter
`r['payload'].get('market_share', 0) >= min_market_share`. -/
def search_territories (page : List SearchHit) (minMarketShare : Option ℚ) : List SearchHit :=
  match minMarketShare with
  | none => page
  | some m => page.filter (fun r => m ≤ r.marketShare.getD 0)

/-- One entry of the `context_results` list assembled by
`SmartSalesAgent.retrieve_context`: similarity score plus the payload
fields used downstream (`payload['type']`, `payload['key']`). -/
structure CtxResult where
  score : ℚ
  etype : String
  key : String
deriving DecidableEq

/-- The comparison `sort(key=lambda x: x['score'], reverse=True)` sorts
with: `a` may precede `b` iff `b`'s score does not exceed `a`'s. -/
def scoreGeRel {α : Type} (f : α → ℚ) (a b : α) : Prop :=
  f b ≤ f a

instance {α : Type} (f : α → ℚ) : DecidableRel (scoreGeRel f) :=
  fun a b => inferInstanceAs (Decidable (f b ≤ f a))

instance {α : Type} (f : α → ℚ) : IsTotal α (scoreGeRel f) :=
  ⟨fun a b => le_total (f b) (f a)⟩

instance {α : Type} (f : α → ℚ) : IsTrans α (scoreGeRel f) :=
  ⟨fun _ _ _ h1 h2 => le_trans h2 h1⟩

/-- Python's `list.sort(key=..., reverse=True)`: a stable sort into
descending key order.  Insertion sort with `scoreGeRel` is stable in
exactly the same sense (an element is inserted before the first element
whose key does not exceed its own, hence after every earlier-emitted equal
key), so it is a faithful model of the CPython stable sort's order. -/
def pySortByScoreDesc {α : Type} (f : α → ℚ) (l : List α) : List α :=
  List.insertionSort (scoreGeRel f) l

/-- `context_type in ["all", "customer"]` — line 61 of
`sales_agent.py`, guarding the customer search. -/
def searchesCustomers (contextType : String) : Bool :=
  decide (contextType ∈ (["all", "customer"] : List String))

/-- `context_type in ["all", "product"]` — guards the product search. -/
def searchesProducts (contextType : String) : Bool :=
  decide (contextType ∈ (["all", "product"] : List String))

/-- `context_type in ["all", "territory"]` — guards the territory search. -/
def searchesTerritories (contextType : String) : Bool :=
  decide (contextType ∈ (["all", "territory"] : List String))

/-- The concatenated `context_results` of `retrieve_context` before the
final sort.  `custPage`, `prodPage` and `terrPage` are the ranked
candidate streams the external vector store would return for the embedded
query in each category; each issued search is truncated server-side to its
fixed cap (`limit=3`, `limit=3`, `limit=2`), and a search that is not
issued contributes nothing. -/
def issuedHits (contextType : String)
    (custPage prodPage terrPage : List CtxResult) : List CtxResult :=
  (if searchesCustomers contextType then custPage.take 3 else []) ++
  (if searchesProducts contextType then prodPage.take 3 else []) ++
  (if searchesTerritories contextType then terrPage.take 2 else [])

/-- `SmartSalesAgent.retrieve_context`: concatenate the issued
category-scoped searches, then
`context_results.sort(key=lambda x: x['score'], reverse=True)`. -/
def retrieve_context (contextType : String)
    (custPage prodPage terrPage : List CtxResult) : List CtxResult :=
  pySortByScoreDesc CtxResult.score (issuedHits contextType custPage prodPage terrPage)

/-- Tags every element with its position, starting at `n` — used to state
stability of the retrieval merge. -/
def tagFrom {α : Type} (n : ℕ) : List α → List (ℕ × α)
  | [] => []
  | x :: xs => (n, x) :: tagFrom (n + 1) xs

/-- Helper: `optSum` over a cons. -/
theorem optSum_cons (o : Option ℚ) (l : List (Option ℚ)) :
    optSum (o :: l) = o.getD 0 + optSum l := by
  cases o <;> simp [optSum, List.filterMap_cons]

/-- Helper: a column with no NaN has `count = length`. -/
theorem optCount_eq_length_of_all_some (l : List (Option ℚ))
    (h : ∀ o ∈ l, o.isSome) : optCount l = l.length := by
  induction l with
  | nil => rfl
  | cons o rest ih =>
    cases o with
    | none => exact absurd (h none (by simp)) (by simp)
    | some v =>
      simp only [optCount, List.filterMap_cons, List.length_cons, id] at *
      exact congrArg (· + 1) (ih (fun o ho => h o (List.mem_cons_of_mem _ ho)))

/-- C6: `generate_text_embedding` is total — it either returns the
model's vector unchanged, or, when the encoding call fails, the all-zero
vector of exactly the configured dimension; in particular it never
raises, so one bad input cannot abort a batch. -/
theorem generate_text_embedding_zero_fallback :
    ∀ (dim : ℕ) (v : List ℚ),
      generate_text_embedding dim (some v) = v ∧
      (generate_text_embedding dim none).length = dim ∧
      ∀ x ∈ generate_text_embedding dim none, x = 0 := by
  intro dim v
  refine ⟨rfl, by simp [generate_text_embedding], ?_⟩
  intro x hx
  simp only [generate_text_embedding] at hx
  exact List.eq_of_mem_replicate hx

/-- C8: each numeric post-filter (`min_sales`, `min_performance`,
`min_market_share`) filters the very page the unfiltered call with the
same limit and equality filters would return, so the filtered search is a
subsequence of the unfiltered one and never longer. -/
theorem search_post_filter_sublist :
    ∀ (page : List SearchHit) (m : ℚ),
      (search_customers page (some m)).Sublist (search_customers page none) ∧
      (search_customers page (some m)).length ≤ (search_customers page none).length ∧
      (search_products page (some m)).Sublist (search_products page none) ∧
      (search_products page (some m)).length ≤ (search_products page none).length ∧
      (search_territories page (some m)).Sublist (search_territories page none) ∧
      (search_territories page (some m)).length ≤ (search_territories page none).length := by
  intro page m
  simp only [search_customers, search_products, search_territories]
  exact ⟨List.filter_sublist page, (List.filter_sublist page).length_le,
    List.filter_sublist page, (List.filter_sublist page).length_le,
    List.filter_sublist page, (List.filter_sublist page).length_le⟩

/-- C9: `store_embeddings` on an empty record collection reports success
and leaves the collection (hence every point count) unchanged. -/
theorem store_embeddings_empty_is_successful_noop :
    ∀ coll : QCollection,
      store_embeddings coll [] = (true, coll) ∧
      (store_embeddings coll []).2.points.length = coll.points.length := by
  intro coll
  constructor <;> simp [store_embeddings]

/-- C5 (counterexample): when the external generation call fails on every
attempt (`groqOutcome = none`), `enhance_text_with_groq` executes exactly
one attempt — not the three the claim promises — because the inner
`except Exception` handler swallows the failure and returns the base text
before the `tenacity` decorator can see an exception. -/
theorem enhance_retry_count_counterexample :
    (enhance_text_with_groq none "base text").1 = 1 ∧
    ¬ (enhance_text_with_groq none "base text").1 = 3 ∧
    (enhance_text_with_groq none "base text").2 = Except.ok "base text" := by
  refine ⟨rfl, ?_, rfl⟩
  intro h
  simp [enhance_text_with_groq, tenacityRun, enhanceAttempt] at h

/-- C5 (amended): the retry decorator (3 attempts, exponential backoff
base 4s cap 10s) wraps a body that catches every failure of the external
generation call and returns the base text, so every call finishes after
exactly one attempt and never propagates an exception: the caller gets
the trimmed response on success and the unchanged base text on failure. -/
theorem enhance_text_single_attempt_fallback :
    ∀ (groqOutcome : Option String) (text : String),
      (enhance_text_with_groq groqOutcome text).1 = 1 ∧
      (enhance_text_with_groq groqOutcome text).2 =
        Except.ok (match groqOutcome with
          | some s => s.trim
          | none => text) := by
  intro g t
  cases g <;> simp [enhance_text_with_groq, tenacityRun, enhanceAttempt]

/-- Helper: upserting a batch of points whose identifiers are all fresh
(drawn at or after `n`, with every stored id below `n`) never replaces a
stored point — the collection grows by exactly the batch size. -/
theorem qdrantUpsert_buildPoints_length :
    ∀ (embs : List (String × EmbData)) (points : List QPoint) (n : ℕ),
      (∀ q ∈ points, q.id < n) →
      (qdrantUpsert points (buildPoints n embs)).length = points.length + embs.length := by
  intro embs
  induction embs with
  | nil => intro points n _; simp [qdrantUpsert, buildPoints]
  | cons hd rest ih =>
    intro points n h
    obtain ⟨key, e⟩ := hd
    simp only [buildPoints, qdrantUpsert, List.foldl_cons]
    have hany : points.any (fun q => q.id = (mkPoint n key e).id) = false := by
      simp only [List.any_eq_false, decide_eq_true_eq, mkPoint]
      intro q hq
      exact Nat.ne_of_lt (h q hq)
    have hstep : upsertPoint points (mkPoint n key e) = points ++ [mkPoint n key e] := by
      simp [upsertPoint, hany]
    rw [hstep]
    have hfresh : ∀ q ∈ points ++ [mkPoint n key e], q.id < n + 1 := by
      intro q hq
      rcases List.mem_append.1 hq with hq | hq
      · exact Nat.lt_succ_of_lt (h q hq)
      · simp only [List.mem_singleton] at hq
        subst hq
        exact Nat.lt_succ_self n
    have hrec := ih (points ++ [mkPoint n key e]) (n + 1) hfresh
    simp only [qdrantUpsert] at hrec
    rw [hrec]
    simp only [List.length_append, List.length_cons, List.length_nil]
    omega

/-- A sample embedding record, used by the concrete storage scenarios. -/
def sampleEmb : EmbData :=
  { text := "customer text", vector := [1], metadata := [("type", "customer")] }

/-- The collection obtained by storing the record of entity `"A"` twice in
a row into an initially empty collection. -/
def collAfterTwoStores : QCollection :=
  (store_embeddings (store_embeddings ⟨[], 0⟩ [("A", sampleEmb)]).2 [("A", sampleEmb)]).2

/-- C4 (counterexample): `store_embeddings` draws a brand-new
`uuid.uuid4()` identifier on every call, so re-storing the very same
entity record adds a second point with the same key instead of replacing
the first — after two stores the collection holds two points for entity
`"A"`, not one. -/
theorem store_embeddings_duplicate_key_counterexample :
    countKey collAfterTwoStores "A" = 2 ∧
    ¬ collAfterTwoStores.points.length = 1 ∧
    collAfterTwoStores.points.length = 2 := by
  refine ⟨rfl, ?_, rfl⟩
  intro h
  simp [collAfterTwoStores, store_embeddings, buildPoints, qdrantUpsert, upsertPoint,
    mkPoint, sampleEmb] at h

/-- C4 (amended): every call of `store_embeddings` assigns each record a
freshly drawn identifier that cannot collide with any stored point, so a
non-empty batch always appends: the collection grows by exactly the batch
size (and success is reported).  Re-storing an entity therefore duplicates
its key; wholesale overwrite happens only via `clear_collection`. -/
theorem store_embeddings_always_appends (coll : QCollection)
    (embs : List (String × EmbData)) (h : freshIdsOk coll) :
    (store_embeddings coll embs).1 = true ∧
    (store_embeddings coll embs).2.points.length = coll.points.length + embs.length := by
  by_cases hemp : embs.isEmpty
  · have : embs = [] := List.isEmpty_iff.1 hemp
    subst this
    simp [store_embeddings]
  · constructor
    · simp [store_embeddings, hemp]
    · simp only [store_embeddings, hemp, Bool.false_eq_true, if_false]
      exact qdrantUpsert_buildPoints_length embs coll.points coll.nextFreshId h

/-- Witness for `store_embeddings_always_appends` at a concrete store. -/
theorem store_embeddings_always_appends_witness :
    (store_embeddings ⟨[], 0⟩ [("A", sampleEmb)]).1 = true ∧
    (store_embeddings ⟨[], 0⟩ [("A", sampleEmb)]).2.points.length = 0 + 1 :=
  store_embeddings_always_appends ⟨[], 0⟩ [("A", sampleEmb)]
    (by intro q hq; simp at hq)

/-- A row of customer `"A"` whose sales amount parsed. -/
def rNan1 : Row := ⟨1, some 100, some 1, "A", "Classic Cars", "P1", some "EMEA", "Small", "Shipped"⟩

/-- A row of customer `"A"` whose `SALES` cell failed numeric coercion
(`errors='coerce'` left NaN). -/
def rNan2 : Row := ⟨2, none, some 1, "A", "Classic Cars", "P1", some "EMEA", "Small", "Shipped"⟩

/-- Two transactions of customer `"A"`, one with an unparsable sales
value. -/
def dfNanSales : List Row := [rNan1, rNan2]

/-- C3 (counterexample): for customer `"A"` of `dfNanSales`,
`total_orders = 2` (both rows survive deduplication) but
`avg_order_value = 100` — the pandas mean divides by the number of
parseable sales values (1), not by `total_orders` (2) — while
`total_sales / total_orders = 50`, so the claimed identity fails. -/
theorem customer_avg_order_value_counterexample :
    customer_avg_order_value (dropDuplicates dfNanSales) "A" = 100 ∧
    customer_total_sales (dropDuplicates dfNanSales) "A" /
      (customer_total_orders (dropDuplicates dfNanSales) "A" : ℚ) = 50 ∧
    customer_avg_order_value (dropDuplicates dfNanSales) "A" ≠
      customer_total_sales (dropDuplicates dfNanSales) "A" /
        (customer_total_orders (dropDuplicates dfNanSales) "A" : ℚ) := by
  have h1 : customer_avg_order_value (dropDuplicates dfNanSales) "A" = 100 := by
    norm_num [customer_avg_order_value, customerRows, optSum, optCount,
      List.filterMap_cons, dropDuplicates, dropDupAux, dfNanSales, rNan1, rNan2]
  have h2 : customer_total_sales (dropDuplicates dfNanSales) "A" /
      (customer_total_orders (dropDuplicates dfNanSales) "A" : ℚ) = 50 := by
    norm_num [customer_total_sales, customer_total_orders, customerRows, optSum, optCount,
      List.filterMap_cons, dropDuplicates, dropDupAux, dfNanSales, rNan1, rNan2]
  refine ⟨h1, h2, ?_⟩
  rw [h1, h2]
  norm_num

/-- C3 (amended): for every customer all of whose deduplicated rows carry
a parseable sales amount, `avg_order_value = total_sales / total_orders`
exactly, and `total_orders` is the number of deduplicated rows with that
customer name. -/
theorem customer_profile_totals_consistent (df : List Row) (name : String)
    (h : ∀ r ∈ customerRows (dropDuplicates df) name, (r.sales).isSome) :
    customer_avg_order_value (dropDuplicates df) name =
      customer_total_sales (dropDuplicates df) name /
        (customer_total_orders (dropDuplicates df) name : ℚ) ∧
    customer_total_orders (dropDuplicates df) name =
      ((dropDuplicates df).filter (fun r => r.customerName = name)).length := by
  constructor
  · have hc : optCount ((customerRows (dropDuplicates df) name).map (fun r => r.sales)) =
        (customerRows (dropDuplicates df) name).length := by
      rw [optCount_eq_length_of_all_some]
      · exact List.length_map _ _
      · intro o ho
        rcases List.mem_map.1 ho with ⟨r, hr, rfl⟩
        exact h r hr
    unfold customer_avg_order_value customer_total_sales customer_total_orders
    rw [hc, List.length_map]
  · simp [customer_total_orders, customerRows]

/-- Two fully parseable transactions of customer `"A"`. -/
def dfCustOk : List Row :=
  [⟨1, some 100, some 1, "A", "Classic Cars", "P1", some "EMEA", "Small", "Shipped"⟩,
   ⟨2, some 200, some 2, "A", "Classic Cars", "P1", some "EMEA", "Small", "Shipped"⟩]

/-- Witness for `customer_profile_totals_consistent` on a concrete
frame. -/
theorem customer_profile_totals_consistent_witness :
    customer_avg_order_value (dropDuplicates dfCustOk) "A" =
      customer_total_sales (dropDuplicates dfCustOk) "A" /
        (customer_total_orders (dropDuplicates dfCustOk) "A" : ℚ) ∧
    customer_total_orders (dropDuplicates dfCustOk) "A" =
      ((dropDuplicates dfCustOk).filter (fun r => r.customerName = "A")).length :=
  customer_profile_totals_consistent dfCustOk "A" (by decide)

/-- First transaction of product `("Classic Cars", "P1")`: sales 100,
quantity 1. -/
def rBug1 : Row := ⟨1, some 100, some 1, "A", "Classic Cars", "P1", some "EMEA", "Small", "Shipped"⟩

/-- Second transaction of the same product: again sales 100, quantity 1. -/
def rBug2 : Row := ⟨2, some 100, some 1, "B", "Classic Cars", "P1", some "EMEA", "Small", "Shipped"⟩

/-- A frame with one product sold in two transactions of 100 each. -/
def dfBug : List Row := [rBug1, rBug2]

/-- C1 (code bug): on `dfBug` the source normalizes the product's total
sales (200) by `df['SALES'].max()` — the largest *single-transaction*
sales value (100) — instead of the largest per-product total the spec
prescribes, so `performance_score = 2·0.5 + 1·0.3 + 1·0.2 = 1.5 > 1`,
outside the promised `[0,1]`; the spec formula, which the code's own
comment "Normalize metrics (0-1 scale)" also intends, would give exactly
1 here. -/
theorem performance_score_exceeds_one :
    performance_score dfBug "Classic Cars" "P1" = 3 / 2 ∧
    1 < performance_score dfBug "Classic Cars" "P1" ∧
    spec_performance_score dfBug "Classic Cars" "P1" = 1 ∧
    performance_score dfBug "Classic Cars" "P1" ≠
      spec_performance_score dfBug "Classic Cars" "P1" := by
  have h1 : performance_score dfBug "Classic Cars" "P1" = 3 / 2 := by
    norm_num [performance_score, sales_score, order_score, quantity_score,
      max_sales, max_orders, max_quantity, product_total_sales, product_order_count,
      product_total_quantity, productRows, productCodes, codeRows, distinctKeys,
      optSum, optCount, optMax, listMaxQ, listMaxN, List.filterMap_cons,
      dfBug, rBug1, rBug2]
  have h2 : spec_performance_score dfBug "Classic Cars" "P1" = 1 := by
    norm_num [spec_performance_score, productKeys, product_total_sales,
      product_order_count, product_total_quantity, productRows, distinctKeys,
      optSum, optCount, listMaxQ, listMaxN, List.filterMap_cons,
      dfBug, rBug1, rBug2]
  refine ⟨h1, by rw [h1]; norm_num, h2, by rw [h1, h2]; norm_num⟩

/-- Helper: both `distinctKeys` and the original list carry the same
elements. -/
theorem mem_distinctKeys {α : Type} [DecidableEq α] (l : List α) (x : α) :
    x ∈ distinctKeys l ↔ x ∈ l := by
  induction l with
  | nil => simp [distinctKeys]
  | cons a rest ih =>
    by_cases h : a ∈ rest
    · rw [distinctKeys, if_pos h, ih, List.mem_cons]
      constructor
      · exact Or.inr
      · rintro (rfl | hx)
        · exact h
        · exact hx
    · rw [distinctKeys, if_neg h, List.mem_cons, List.mem_cons, ih]

/-- Helper: `distinctKeys` has no duplicates. -/
theorem nodup_distinctKeys {α : Type} [DecidableEq α] (l : List α) :
    (distinctKeys l).Nodup := by
  induction l with
  | nil => simp [distinctKeys]
  | cons a rest ih =>
    by_cases h : a ∈ rest
    · rw [distinctKeys, if_pos h]
      exact ih
    · rw [distinctKeys, if_neg h]
      exact List.nodup_cons.2 ⟨fun hmem => h ((mem_distinctKeys rest a).1 hmem), ih⟩

/-- Helper: `distinctKeys` and the original list have the same `toFinset`. -/
theorem toFinset_distinctKeys {α : Type} [DecidableEq α] (l : List α) :
    (distinctKeys l).toFinset = l.toFinset := by
  ext x
  simp [List.mem_toFinset, mem_distinctKeys]

/-- The sales value used by pandas sums: the parsed amount, `0` if NaN. -/
def rowSalesD (r : Row) : ℚ := (r.sales).getD 0

/-- Helper: `optSum` as a plain sum of defaulted values. -/
theorem optSum_map_getD (l : List (Option ℚ)) :
    optSum l = (l.map (fun o => o.getD 0)).sum := by
  induction l with
  | nil => rfl
  | cons o rest ih => rw [optSum_cons, List.map_cons, List.sum_cons, ih]

/-- Helper: the grand total is the sum of the defaulted sales values. -/
theorem grand_total_eq_sum (df : List Row) :
    grand_total_sales df = (df.map rowSalesD).sum := by
  unfold grand_total_sales
  rw [optSum_map_getD, List.map_map]
  rfl

/-- Helper: a territory's total as an indicator sum over the whole frame. -/
theorem territory_total_eq_ite_sum (df : List Row) (t : String) :
    territory_total_sales df t =
      (df.map (fun r => if r.territory = some t then rowSalesD r else 0)).sum := by
  induction df with
  | nil => rfl
  | cons r rest ih =>
    unfold territory_total_sales territoryRows at *
    by_cases hr : r.territory = some t
    · simp [List.filter_cons, hr, optSum_cons, rowSalesD, ih]
    · simp [List.filter_cons, hr, ih]

/-- Helper: summing the per-territory indicator sums over any finite key
set that covers every row reconstructs the whole-frame sum. -/
theorem sum_ite_key_partition (S : Finset String) :
    ∀ df : List Row, (∀ r ∈ df, ∃ t ∈ S, r.territory = some t) →
      (∑ t ∈ S, (df.map (fun r => if r.territory = some t then rowSalesD r else 0)).sum)
        = (df.map rowSalesD).sum := by
  intro df
  induction df with
  | nil => intro _; simp
  | cons r rest ih =>
    intro h
    obtain ⟨t0, ht0S, ht0⟩ := h r (List.mem_cons_self r rest)
    simp only [List.map_cons, List.sum_cons]
    rw [Finset.sum_add_distrib, ih (fun x hx => h x (List.mem_cons_of_mem _ hx))]
    congr 1
    simp only [ht0, Option.some.injEq]
    rw [Finset.sum_ite_eq S t0 (fun _ => rowSalesD r)]
    simp [ht0S]

/-- C2 (amended): each territory's `market_share` is
`100 · (territory total sales / grand total over ALL rows)`; whenever
every row carries a territory and the grand total is nonzero the shares
sum to exactly `100`. -/
theorem market_share_sum_eq_100 (df : List Row)
    (hterr : ∀ r ∈ df, (r.territory).isSome)
    (htot : grand_total_sales df ≠ 0) :
    market_share_sum df = 100 := by
  have hkeys : ((territoryKeys df).map (fun t => territory_total_sales df t)).sum
      = grand_total_sales df := by
    have hnd : (df.filterMap (fun r => r.territory)).toFinset.sum
        (fun t => territory_total_sales df t)
        = ((distinctKeys (df.filterMap (fun r => r.territory))).map
            (fun t => territory_total_sales df t)).sum := by
      rw [← toFinset_distinctKeys]
      exact List.sum_toFinset _ (nodup_distinctKeys _)
    have hS : ∀ r ∈ df,
        ∃ t ∈ (df.filterMap (fun r => r.territory)).toFinset, r.territory = some t := by
      intro r hr
      rcases Option.isSome_iff_exists.1 (hterr r hr) with ⟨t, ht⟩
      refine ⟨t, ?_, ht⟩
      rw [List.mem_toFinset, List.mem_filterMap]
      exact ⟨r, hr, ht⟩
    unfold territoryKeys
    rw [← hnd]
    calc (∑ t ∈ (df.filterMap (fun r => r.territory)).toFinset, territory_total_sales df t)
        = ∑ t ∈ (df.filterMap (fun r => r.territory)).toFinset,
            (df.map (fun r => if r.territory = some t then rowSalesD r else 0)).sum :=
          Finset.sum_congr rfl (fun t _ => territory_total_eq_ite_sum df t)
      _ = (df.map rowSalesD).sum := sum_ite_key_partition _ df hS
      _ = grand_total_sales df := (grand_total_eq_sum df).symm
  unfold market_share_sum market_share
  have hfun : (fun t => territory_total_sales df t / grand_total_sales df * 100)
      = fun t => territory_total_sales df t * (100 / grand_total_sales df) := by
    funext t
    ring
  rw [hfun, List.sum_map_mul_right, hkeys]
  field_simp

/-- A row with a territory, sales 100. -/
def rGap1 : Row := ⟨1, some 100, some 1, "A", "Classic Cars", "P1", some "EMEA", "Small", "Shipped"⟩

/-- A row whose `TERRITORY` cell is missing (NaN): it is dropped by
`groupby('TERRITORY')` but still counted in `df['SALES'].sum()`. -/
def rGap2 : Row := ⟨2, some 100, some 1, "B", "Classic Cars", "P1", none, "Small", "Shipped"⟩

/-- A non-empty frame where half the sales carry no territory. -/
def dfTerrGap : List Row := [rGap1, rGap2]

/-- A non-empty frame whose grand total sales is zero. -/
def dfZeroSales : List Row :=
  [⟨1, some 0, some 1, "A", "Classic Cars", "P1", some "EMEA", "Small", "Shipped"⟩]

/-- C2 (counterexample): two non-empty frames whose market shares do not
sum to 100: with a missing-territory row the only territory gets share
50; with an all-zero sales column the division by the zero grand total
does not produce shares summing to 100 (the source yields NaN there; the
rational model yields 0 — both differ from 100). -/
theorem market_share_sum_counterexample :
    dfTerrGap ≠ [] ∧ market_share_sum dfTerrGap = 50 ∧
      market_share_sum dfTerrGap ≠ 100 ∧
    dfZeroSales ≠ [] ∧ market_share_sum dfZeroSales = 0 ∧
      market_share_sum dfZeroSales ≠ 100 := by
  have h1 : market_share_sum dfTerrGap = 50 := by
    simp [market_share_sum, market_share, territory_total_sales, grand_total_sales,
      territoryRows, territoryKeys, distinctKeys, optSum, List.filterMap_cons,
      List.filter_cons, dfTerrGap, rGap1, rGap2]
    norm_num
  have h2 : market_share_sum dfZeroSales = 0 := by
    simp [market_share_sum, market_share, territory_total_sales, grand_total_sales,
      territoryRows, territoryKeys, distinctKeys, optSum, List.filterMap_cons,
      List.filter_cons, dfZeroSales]
  refine ⟨by simp [dfTerrGap], h1, by rw [h1]; norm_num,
    by simp [dfZeroSales], h2, by rw [h2]; norm_num⟩

/-- Two rows in two territories, sales 100 and 300. -/
def dfTwoTerr : List Row :=
  [rGap1, ⟨2, some 300, some 1, "B", "Classic Cars", "P2", some "APAC", "Small", "Shipped"⟩]

/-- Witness for `market_share_sum_eq_100` on a concrete two-territory
frame (shares 25 and 75). -/
theorem market_share_sum_eq_100_witness :
    market_share_sum dfTwoTerr = 100 :=
  market_share_sum_eq_100 dfTwoTerr (by decide)
    (by norm_num [grand_total_sales, optSum, List.filterMap_cons, dfTwoTerr, rGap1])

/-- Helper: inserting `a` into a list ordered by descending score
preserves a pairwise invariant `P`, provided `P` holds between `a` and
every element on the side where the insertion can place them. -/
theorem orderedInsert_pairwise {α : Type} (f : α → ℚ) (P : α → α → Prop) (a : α) :
    ∀ l : List α, l.Pairwise P → l.Pairwise (scoreGeRel f) →
      (∀ y ∈ l, (f y ≤ f a → P a y) ∧ (f a < f y → P y a)) →
      (List.orderedInsert (scoreGeRel f) a l).Pairwise P := by
  intro l
  induction l with
  | nil =>
    intro _ _ _
    simp
  | cons b rest ih =>
    intro hP hsorted hcond
    by_cases hab : scoreGeRel f a b
    · rw [List.orderedInsert, if_pos hab]
      refine List.pairwise_cons.2 ⟨?_, hP⟩
      intro y hy
      rcases List.mem_cons.1 hy with rfl | hy
      · exact (hcond y (List.mem_cons_self _ _)).1 hab
      · have hby : scoreGeRel f b y := (List.pairwise_cons.1 hsorted).1 y hy
        exact (hcond y (List.mem_cons_of_mem _ hy)).1 (le_trans hby hab)
    · rw [List.orderedInsert, if_neg hab]
      have halt : f a < f b := lt_of_not_le hab
      refine List.pairwise_cons.2 ⟨?_, ?_⟩
      · intro y hy
        rcases (List.mem_orderedInsert _).1 hy with rfl | hy
        · exact (hcond b (List.mem_cons_self _ _)).2 halt
        · exact (List.pairwise_cons.1 hP).1 y hy
      · exact ih (List.pairwise_cons.1 hP).2 (List.pairwise_cons.1 hsorted).2
          (fun y hy => hcond y (List.mem_cons_of_mem _ hy))

/-- Helper (stability): sorting a list whose position tags strictly
increase produces a list that is descending in score and, on equal
scores, ascending in original position — i.e. ties keep their emission
order. -/
theorem insertionSort_stable_pairwise {α : Type} (f : α → ℚ) (g : α → ℕ) :
    ∀ l : List α, l.Pairwise (fun x y => g x < g y) →
      (List.insertionSort (scoreGeRel f) l).Pairwise
        (fun x y => f y ≤ f x ∧ (f x = f y → g x < g y)) := by
  intro l
  induction l with
  | nil =>
    intro _
    simp
  | cons a rest ih =>
    intro htags
    have hhead := (List.pairwise_cons.1 htags).1
    have htail := (List.pairwise_cons.1 htags).2
    rw [List.insertionSort]
    apply orderedInsert_pairwise f _ a
    · exact ih htail
    · exact List.sorted_insertionSort (scoreGeRel f) rest
    · intro y hy
      have hmem : y ∈ rest := (List.perm_insertionSort (scoreGeRel f) rest).subset hy
      have hga : g a < g y := hhead y hmem
      refine ⟨fun hle => ⟨hle, fun _ => hga⟩, fun hlt => ⟨le_of_lt hlt, ?_⟩⟩
      intro heq
      exact absurd heq (ne_of_gt hlt)

/-- Helper: ordered insertion commutes with erasing position tags. -/
theorem orderedInsert_map_snd {α β : Type} (f : α → ℚ) (e : β → α) (b : β) :
    ∀ l : List β,
      (List.orderedInsert (scoreGeRel (fun x => f (e x))) b l).map e
        = List.orderedInsert (scoreGeRel f) (e b) (l.map e) := by
  intro l
  induction l with
  | nil => rfl
  | cons c rest ih =>
    by_cases h : f (e c) ≤ f (e b)
    · have h1 : scoreGeRel (fun x => f (e x)) b c := h
      have h2 : scoreGeRel f (e b) (e c) := h
      simp only [List.orderedInsert, List.map_cons]
      rw [if_pos h1, if_pos h2]
      simp
    · have h1 : ¬ scoreGeRel (fun x => f (e x)) b c := h
      have h2 : ¬ scoreGeRel f (e b) (e c) := h
      simp only [List.orderedInsert, List.map_cons]
      rw [if_neg h1, if_neg h2]
      simp [ih]

/-- Helper: the stable sort commutes with erasing position tags. -/
theorem insertionSort_map_snd {α β : Type} (f : α → ℚ) (e : β → α) :
    ∀ l : List β,
      (List.insertionSort (scoreGeRel (fun x => f (e x))) l).map e
        = List.insertionSort (scoreGeRel f) (l.map e) := by
  intro l
  induction l with
  | nil => rfl
  | cons b rest ih =>
    rw [List.insertionSort, List.map_cons, List.insertionSort, ← ih,
      orderedInsert_map_snd f e b]

/-- Helper: erasing the tags of `tagFrom` restores the list. -/
theorem tagFrom_map_snd {α : Type} : ∀ (n : ℕ) (l : List α),
    (tagFrom n l).map Prod.snd = l := by
  intro n l
  induction l generalizing n with
  | nil => rfl
  | cons x xs ih => simp [tagFrom, ih]

/-- Helper: every tag assigned by `tagFrom n` is at least `n`. -/
theorem mem_tagFrom_le {α : Type} : ∀ (n : ℕ) (l : List α) (y : ℕ × α),
    y ∈ tagFrom n l → n ≤ y.1 := by
  intro n l
  induction l generalizing n with
  | nil =>
    intro y hy
    simp [tagFrom] at hy
  | cons x xs ih =>
    intro y hy
    simp only [tagFrom] at hy
    rcases List.mem_cons.1 hy with rfl | hy
    · exact le_refl n
    · exact le_trans (Nat.le_succ n) (ih (n + 1) y hy)

/-- Helper: the tags assigned by `tagFrom` strictly increase. -/
theorem tagFrom_pairwise_lt {α : Type} : ∀ (n : ℕ) (l : List α),
    (tagFrom n l).Pairwise (fun x y => x.1 < y.1) := by
  intro n l
  induction l generalizing n with
  | nil => simp [tagFrom]
  | cons x xs ih =>
    simp only [tagFrom]
    refine List.pairwise_cons.2 ⟨?_, ih (n + 1)⟩
    intro y hy
    exact lt_of_lt_of_le (Nat.lt_succ_self n) (mem_tagFrom_le (n + 1) xs y hy)

/-- C7: `retrieve_context` returns exactly the concatenation of the
issued category searches (capped at 3 + 3 + 2 results), globally
re-sorted into descending similarity score; the sort is a stable merge —
tagging the concatenation with emission positions and sorting yields the
same list, and in that list two results of equal score appear in strictly
increasing emission order. -/
theorem retrieve_context_stable_ranking :
    ∀ (contextType : String) (custPage prodPage terrPage : List CtxResult),
      (retrieve_context contextType custPage prodPage terrPage).Perm
          (issuedHits contextType custPage prodPage terrPage) ∧
      (retrieve_context contextType custPage prodPage terrPage).Pairwise
          (fun a b => b.score ≤ a.score) ∧
      (retrieve_context contextType custPage prodPage terrPage).length ≤ 3 + 3 + 2 ∧
      retrieve_context contextType custPage prodPage terrPage
        = (pySortByScoreDesc (fun x : ℕ × CtxResult => x.2.score)
            (tagFrom 0 (issuedHits contextType custPage prodPage terrPage))).map Prod.snd ∧
      (pySortByScoreDesc (fun x : ℕ × CtxResult => x.2.score)
          (tagFrom 0 (issuedHits contextType custPage prodPage terrPage))).Pairwise
        (fun x y => y.2.score ≤ x.2.score ∧ (x.2.score = y.2.score → x.1 < y.1)) := by
  intro ct c p t
  refine ⟨List.perm_insertionSort _ _, ?_, ?_, ?_, ?_⟩
  · exact List.sorted_insertionSort (scoreGeRel CtxResult.score) (issuedHits ct c p t)
  · have hlen := (List.perm_insertionSort (scoreGeRel CtxResult.score)
      (issuedHits ct c p t)).length_eq
    have h1 : (if searchesCustomers ct then c.take 3 else []).length ≤ 3 := by
      split
      · exact le_trans (List.length_take_le 3 c) (le_refl 3)
      · simp
    have h2 : (if searchesProducts ct then p.take 3 else []).length ≤ 3 := by
      split
      · exact le_trans (List.length_take_le 3 p) (le_refl 3)
      · simp
    have h3 : (if searchesTerritories ct then t.take 2 else []).length ≤ 2 := by
      split
      · exact le_trans (List.length_take_le 2 t) (le_refl 2)
      · simp
    have : (issuedHits ct c p t).length ≤ 3 + 3 + 2 := by
      unfold issuedHits
      rw [List.length_append, List.length_append]
      omega
    calc (retrieve_context ct c p t).length
        = (issuedHits ct c p t).length := hlen
      _ ≤ 3 + 3 + 2 := this
  · have hmap := insertionSort_map_snd CtxResult.score
      (Prod.snd : ℕ × CtxResult → CtxResult) (tagFrom 0 (issuedHits ct c p t))
    rw [tagFrom_map_snd] at hmap
    exact hmap.symm
  · exact insertionSort_stable_pairwise (fun x : ℕ × CtxResult => x.2.score) Prod.fst
      (tagFrom 0 (issuedHits ct c p t)) (tagFrom_pairwise_lt 0 _)

/-- C10: a `context_type` outside the recognized set fails all three
membership guards, so no category search is issued and `retrieve_context`
returns the empty list (no exception, no fall-back to the `all` scope). -/
theorem retrieve_context_unknown_scope_empty (contextType : String)
    (custPage prodPage terrPage : List CtxResult)
    (h : contextType ∉ (["all", "customer", "product", "territory"] : List String)) :
    searchesCustomers contextType = false ∧
    searchesProducts contextType = false ∧
    searchesTerritories contextType = false ∧
    retrieve_context contextType custPage prodPage terrPage = [] := by
  simp only [List.mem_cons, List.not_mem_nil, or_false, not_or] at h
  obtain ⟨h1, h2, h3, h4⟩ := h
  have c1 : searchesCustomers contextType = false := by
    simp [searchesCustomers, h1, h2]
  have c2 : searchesProducts contextType = false := by
    simp [searchesProducts, h1, h3]
  have c3 : searchesTerritories contextType = false := by
    simp [searchesTerritories, h1, h4]
  refine ⟨c1, c2, c3, ?_⟩
  simp [retrieve_context, issuedHits, pySortByScoreDesc, c1, c2, c3]

/-- A sample retrieval hit. -/
def sampleCtx : CtxResult := ⟨1, "customer", "A"⟩

/-- Witness for `retrieve_context_unknown_scope_empty` at the
unrecognized scope `"orders"` against non-empty candidate pages. -/
theorem retrieve_context_unknown_scope_empty_witness :
    searchesCustomers "orders" = false ∧
    searchesProducts "orders" = false ∧
    searchesTerritories "orders" = false ∧
    retrieve_context "orders" [sampleCtx] [sampleCtx] [sampleCtx] = [] :=
  retrieve_context_unknown_scope_empty "orders" [sampleCtx] [sampleCtx] [sampleCtx]
    (by decide)
